import Mathlib

/-!
Verification development for the linksharing request-routing handler
(package `sharing`, file `handler.go`).

Go strings are modeled as lists of characters.  The Go standard-library
string operations used by the handler (`strings.SplitN`, `strings.HasSuffix`,
`strings.TrimPrefix`, `strings.Contains`, `net.SplitHostPort`) are embedded
as executable Lean functions with the same semantics.  External collaborators
(the base58 check-decoder, the auth-service resolver, the uplink SDK, the DNS
TXT-record fetcher, the HTML templating and the byte-range content server)
are modeled as explicit function parameters, and handler responses as an
inductive `Response` describing what is written to the HTTP response writer.
-/

namespace Linksharing

/-- Go strings are modeled as lists of characters. -/
abbrev Str := List Char

/-- Split at the first occurrence of `c`:  `splitFirst c s = some (a, b)`
when `s = a ++ c :: b` with `c` not occurring in `a`; `none` when `c` does
not occur in `s`. -/
def splitFirst (c : Char) : Str → Option (Str × Str)
  | [] => none
  | d :: ds =>
    if d = c then some ([], ds)
    else
      match splitFirst c ds with
      | none => none
      | some (a, b) => some (d :: a, b)

/-- Models Go `strings.SplitN(s, sep, n)` for a single-character separator:
at most `n` pieces, the last piece being the unsplit remainder. -/
def goSplitN (c : Char) : Nat → Str → List Str
  | 0, _ => []
  | 1, s => [s]
  | n + 2, s =>
    match splitFirst c s with
    | none => [s]
    | some (a, b) => a :: goSplitN c (n + 1) b

/-- Models Go `strings.HasPrefix(s, pat)`: does `s` start with `pat`? -/
def goStarts : Str → Str → Bool
  | _, [] => true
  | [], _ :: _ => false
  | c :: cs, d :: ds => c == d && goStarts cs ds

/-- Models Go `strings.HasSuffix(s, pat)`: does `s` end with `pat`? -/
def goEndsWith (s pat : Str) : Bool := goStarts s.reverse pat.reverse

/-- Models Go `strings.TrimPrefix(s, pat)`: drops one leading copy of `pat`
when present. -/
def trimLead (s pat : Str) : Str := if goStarts s pat then s.drop pat.length else s

/-- Models Go `strings.Contains(s, sub)`. -/
def containsSub : Str → Str → Bool
  | [], sub => sub.isEmpty
  | c :: cs, sub => goStarts (c :: cs) sub || containsSub cs sub

/-- Embeds `determineBucketAndObjectKey` from `sharing/handler.go`
(lines 494-505): split the storage root at the first slash into bucket and
rest, normalize a non-empty rest to end in a slash, and append the URL path
with one leading slash stripped. -/
def determineBucketAndObjectKey (root urlPath : Str) : Str × Str :=
  let parts := goSplitN '/' 2 root
  let bucket := parts.headD []
  let pfx0 := (parts.drop 1).headD []
  let pfx := if pfx0 ≠ [] ∧ goEndsWith pfx0 ['/'] = false then pfx0 ++ ['/'] else pfx0
  (bucket, pfx ++ trimLead urlPath ['/'])

/-- Spec reading (section 4.5 step 1): the part of `root` before its first
slash. -/
def specBucket (root : Str) : Str := root.takeWhile (fun d => d != '/')

/-- Spec reading (section 4.5 step 1): the remainder of `root` after its
first slash, empty when there is no slash. -/
def specRest (root : Str) : Str := (root.dropWhile (fun d => d != '/')).drop 1

/-- Spec reading (section 4.5 step 2): `specRest` with a slash appended
exactly when it is non-empty and does not already end in a slash. -/
def specPfx (root : Str) : Str :=
  let r := specRest root
  if r ≠ [] ∧ r.getLast? ≠ some '/' then r ++ ['/'] else r

/-- Spec reading (section 4.5 step 3): `urlPath` with exactly one leading
slash stripped when present. -/
def stripOneSlash : Str → Str
  | '/' :: t => t
  | s => s

/-- `splitFirst` finds nothing when the separator does not occur. -/
theorem splitFirst_of_not_mem {c : Char} {s : Str} (h : c ∉ s) : splitFirst c s = none := by
  induction s with
  | nil => rfl
  | cons d ds ih =>
    simp only [List.mem_cons, not_or] at h
    simp only [splitFirst, if_neg (fun e : d = c => h.1 e.symm), ih h.2]

/-- `splitFirst` at an occurring separator yields the longest separator-free
front and the remainder past the first separator. -/
theorem splitFirst_of_mem {c : Char} {s : Str} (h : c ∈ s) :
    splitFirst c s =
      some (s.takeWhile (fun d => d != c), (s.dropWhile (fun d => d != c)).drop 1) := by
  induction s with
  | nil => cases h
  | cons d ds ih =>
    by_cases hd : d = c
    · subst hd
      simp [splitFirst, List.takeWhile_cons, List.dropWhile_cons]
    · have hds : c ∈ ds := by
        rcases List.mem_cons.mp h with h1 | h2
        · exact absurd h1.symm hd
        · exact h2
      simp [splitFirst, if_neg hd, ih hds, List.takeWhile_cons, List.dropWhile_cons,
        bne_iff_ne, hd]

/-- Unfolding lemma for a two-way bounded split. -/
theorem goSplitN_two (c : Char) (s : Str) :
    goSplitN c 2 s = (match splitFirst c s with
      | none => [s]
      | some (a, b) => [a, b]) := by
  show (match splitFirst c s with
      | none => [s]
      | some (a, b) => a :: goSplitN c 1 b) = _
  cases splitFirst c s with
  | none => rfl
  | some ab => rfl

/-- A whole list survives `takeWhile` when the stopping character is absent. -/
theorem takeWhile_ne_of_not_mem {c : Char} {s : Str} (h : c ∉ s) :
    s.takeWhile (fun d => d != c) = s := by
  induction s with
  | nil => rfl
  | cons d ds ih =>
    simp only [List.mem_cons, not_or] at h
    have hdc : ¬d = c := fun e => h.1 e.symm
    simp [List.takeWhile_cons, bne_iff_ne, hdc, ih h.2]

/-- `dropWhile` erases the whole list when the stopping character is absent. -/
theorem dropWhile_ne_of_not_mem {c : Char} {s : Str} (h : c ∉ s) :
    s.dropWhile (fun d => d != c) = [] := by
  induction s with
  | nil => rfl
  | cons d ds ih =>
    simp only [List.mem_cons, not_or] at h
    have hdc : ¬d = c := fun e => h.1 e.symm
    simp [List.dropWhile_cons, bne_iff_ne, hdc, ih h.2]

/-- Ending in a single-character suffix is having that character last. -/
theorem goEndsWith_singleton (c : Char) (s : Str) :
    goEndsWith s [c] = true ↔ s.getLast? = some c := by
  unfold goEndsWith
  rw [← List.head?_reverse]
  cases s.reverse with
  | nil => simp [goStarts]
  | cons d ds => simp [goStarts]

/-- Not ending in a single-character suffix, `Bool`-negated form. -/
theorem goEndsWith_singleton_false (c : Char) (s : Str) :
    goEndsWith s [c] = false ↔ s.getLast? ≠ some c := by
  rw [ne_eq, ← goEndsWith_singleton]
  cases goEndsWith s [c] <;> simp

/-- Stripping one leading slash via `trimLead` matches the spec reading. -/
theorem trimLead_slash (s : Str) : trimLead s ['/'] = stripOneSlash s := by
  cases s with
  | nil => simp [trimLead, goStarts, stripOneSlash]
  | cons c t =>
    by_cases hc : c = '/'
    · subst hc; simp [trimLead, goStarts, stripOneSlash]
    · simp [trimLead, goStarts, stripOneSlash, hc]

/-- The code mapper agrees with the spec description of section 4.5 on every
input pair. -/
theorem determine_eq_spec (root urlPath : Str) :
    determineBucketAndObjectKey root urlPath =
      (specBucket root, specPfx root ++ stripOneSlash urlPath) := by
  unfold determineBucketAndObjectKey specBucket specPfx specRest
  rw [trimLead_slash]
  by_cases h : '/' ∈ root
  · simp only [goSplitN_two, splitFirst_of_mem h, List.headD_cons, List.drop_succ_cons,
      List.drop_zero]
    have hb := goEndsWith_singleton_false '/' ((root.dropWhile (fun d => d != '/')).drop 1)
    by_cases h1 : (root.dropWhile (fun d => d != '/')).drop 1 ≠ [] ∧
        ((root.dropWhile (fun d => d != '/')).drop 1).getLast? ≠ some '/'
    · rw [if_pos ⟨h1.1, hb.mpr h1.2⟩, if_pos h1]
    · rw [if_neg (fun hc => h1 ⟨hc.1, hb.mp hc.2⟩), if_neg h1]
  · simp [goSplitN_two, splitFirst_of_not_mem h, takeWhile_ne_of_not_mem h,
      dropWhile_ne_of_not_mem h]

/-- Claim C1: for every pair of strings root and urlPath,
`determineBucketAndObjectKey` returns the part of root before its first
slash as bucket, and as key the remainder of root after that slash
(slash-normalized exactly when non-empty) followed by urlPath with exactly
one leading slash stripped; in particular it reproduces the documented
table of examples. -/
theorem c1_determineBucketAndObjectKey_spec :
    (∀ root urlPath : Str,
        determineBucketAndObjectKey root urlPath =
          (specBucket root, specPfx root ++ stripOneSlash urlPath)) ∧
    determineBucketAndObjectKey "bucket/prefix/".data "/images/pic.jpg".data =
      ("bucket".data, "prefix/images/pic.jpg".data) ∧
    determineBucketAndObjectKey "bucket".data "/images/pic.jpg".data =
      ("bucket".data, "images/pic.jpg".data) ∧
    determineBucketAndObjectKey "bucket/".data "/images/pic.jpg".data =
      ("bucket".data, "images/pic.jpg".data) ∧
    determineBucketAndObjectKey "bucket//".data "/images/pic.jpg".data =
      ("bucket".data, "/images/pic.jpg".data) ∧
    determineBucketAndObjectKey "bucket//prefix".data "/images/pic.jpg".data =
      ("bucket".data, "/prefix/images/pic.jpg".data) ∧
    determineBucketAndObjectKey "bucket/prefix//".data "/images/pic.jpg".data =
      ("bucket".data, "prefix//images/pic.jpg".data) ∧
    determineBucketAndObjectKey "bucket/prefix".data "/images/pic.jpg".data =
      ("bucket".data, "prefix/images/pic.jpg".data) ∧
    determineBucketAndObjectKey "bucket/prefix/".data "//images/pic.jpg".data =
      ("bucket".data, "prefix//images/pic.jpg".data) :=
  ⟨determine_eq_spec, by decide, by decide, by decide, by decide, by decide, by decide,
    by decide, by decide⟩

/-- An uplink access grant, opaque to this layer; the wrapped string stands
for whatever `uplink.ParseAccess` produced it from. -/
structure Access where
  grant : Str
deriving DecidableEq

/-- Typed failures of `parseRequestPath`: `missingAccess` is the
`errs.New("missing access")` case, `missingBucket` the
`errs.New("missing bucket")` case, and `accessFailure` wraps any error
propagated from `parseAccess`. -/
inductive ReqError (α : Type) where
  | missingAccess
  | missingBucket
  | accessFailure (e : α)
deriving DecidableEq

/-- The four-segment normalization step of `parseRequestPath`
(handler.go lines 358-370): a leading literal `raw` segment is dropped and
flags a raw request; otherwise the last two of four segments are rejoined
with a slash. -/
def parseSegments (segs : List Str) : Bool × List Str :=
  match segs with
  | [s0, s1, s2, s3] =>
    if s0 = "raw".data then (true, [s1, s2, s3])
    else (false, [s0, s1, s2 ++ '/' :: s3])
  | _ => (false, segs)

/-- Embeds `parseRequestPath` from handler.go (lines 353-392), with the
credential decoder `parseAccess` abstracted as the function parameter
`parseA` (its error type is arbitrary).  `goSplitN` never returns an empty
list for a positive bound, so the catch-all arm that would bind an empty
segment list is unreachable. -/
def parseRequestPath {α : Type} (parseA : Str → Except α Access) (p : Str) :
    Except (ReqError α) (Bool × Access × Str × Str × Str) :=
  let pr := parseSegments (goSplitN '/' 4 (trimLead p ['/']))
  match pr.2 with
  | [s] => if s = [] then .error .missingAccess else .error .missingBucket
  | segments =>
    let serializedAccess := segments.headD []
    let bucket := (segments.drop 1).headD []
    let key := if segments.length = 3 then (segments.drop 2).headD [] else []
    match parseA serializedAccess with
    | .error e => .error (.accessFailure e)
    | .ok access => .ok (pr.1, access, serializedAccess, bucket, key)

/-- Evaluation of `parseRequestPath` on a path whose bounded split has four
segments. -/
theorem parseRequestPath_four_eval {α : Type} (parseA : Str → Except α Access)
    (p s0 s1 s2 s3 : Str) (a : Access)
    (hseg : goSplitN '/' 4 (trimLead p ['/']) = [s0, s1, s2, s3]) :
    (s0 = "raw".data → parseA s1 = Except.ok a →
      parseRequestPath parseA p = Except.ok (true, a, s1, s2, s3)) ∧
    (s0 ≠ "raw".data → parseA s0 = Except.ok a →
      parseRequestPath parseA p = Except.ok (false, a, s0, s1, s2 ++ '/' :: s3)) := by
  constructor
  · intro hraw hpa
    subst hraw
    simp [parseRequestPath, parseSegments, hseg, hpa]
  · intro hraw hpa
    simp [parseRequestPath, parseSegments, hseg, hraw, hpa]

/-- Evaluation of `parseRequestPath` on a path whose bounded split has one
segment. -/
theorem parseRequestPath_one_eval {α : Type} (parseA : Str → Except α Access)
    (p s : Str) (hseg : goSplitN '/' 4 (trimLead p ['/']) = [s]) :
    (s = [] → parseRequestPath parseA p = Except.error ReqError.missingAccess) ∧
    (s ≠ [] → parseRequestPath parseA p = Except.error ReqError.missingBucket) := by
  constructor
  · intro hs
    subst hs
    simp [parseRequestPath, parseSegments, hseg]
  · intro hs
    simp [parseRequestPath, parseSegments, hseg, hs]

/-- Claim C2: on every URL path whose bounded four-way split (after
stripping one leading slash) yields four segments, a leading `raw` segment
is dropped and flags a raw request with the remaining three segments as
credential, bucket and key; otherwise the third and fourth segments are
rejoined with a slash as the key; in particular the two documented example
paths parse as stated whenever the credential token decodes. -/
theorem c2_parseRequestPath_four_segments :
    (∀ (α : Type) (parseA : Str → Except α Access) (p s0 s1 s2 s3 : Str) (a : Access),
        goSplitN '/' 4 (trimLead p ['/']) = [s0, s1, s2, s3] →
        (s0 = "raw".data → parseA s1 = Except.ok a →
          parseRequestPath parseA p = Except.ok (true, a, s1, s2, s3)) ∧
        (s0 ≠ "raw".data → parseA s0 = Except.ok a →
          parseRequestPath parseA p = Except.ok (false, a, s0, s1, s2 ++ '/' :: s3))) ∧
    (∀ (α : Type) (parseA : Str → Except α Access) (a : Access),
        parseA "ACCESS".data = Except.ok a →
        parseRequestPath parseA "/ACCESS/bucket/a/b.jpg".data =
          Except.ok (false, a, "ACCESS".data, "bucket".data, "a/b.jpg".data) ∧
        parseRequestPath parseA "/raw/ACCESS/bucket/a/b.jpg".data =
          Except.ok (true, a, "ACCESS".data, "bucket".data, "a/b.jpg".data)) := by
  refine ⟨fun α parseA p s0 s1 s2 s3 a hseg =>
    parseRequestPath_four_eval parseA p s0 s1 s2 s3 a hseg, ?_⟩
  intro α parseA a hpa
  constructor
  · have h := (parseRequestPath_four_eval parseA "/ACCESS/bucket/a/b.jpg".data
      "ACCESS".data "bucket".data "a".data "b.jpg".data a (by decide)).2 (by decide) hpa
    rw [show ("a".data ++ '/' :: "b.jpg".data : Str) = "a/b.jpg".data from by decide] at h
    exact h
  · exact (parseRequestPath_four_eval parseA "/raw/ACCESS/bucket/a/b.jpg".data
      "raw".data "ACCESS".data "bucket".data "a/b.jpg".data a (by decide)).1 rfl hpa

/-- Witness for C2 at a concrete always-succeeding decoder. -/
theorem c2_witness :
    parseRequestPath (fun _ => Except.ok (Access.mk []) : Str → Except Unit Access)
        "/ACCESS/bucket/a/b.jpg".data =
      Except.ok (false, Access.mk [], "ACCESS".data, "bucket".data, "a/b.jpg".data) ∧
    parseRequestPath (fun _ => Except.ok (Access.mk []) : Str → Except Unit Access)
        "/raw/ACCESS/bucket/a/b.jpg".data =
      Except.ok (true, Access.mk [], "ACCESS".data, "bucket".data, "a/b.jpg".data) :=
  c2_parseRequestPath_four_segments.2 Unit (fun _ => Except.ok (Access.mk []))
    (Access.mk []) rfl

/-- Claim C7: a request path that strips and splits to exactly one segment
fails with the missing-access error when the segment is empty and the
missing-bucket error otherwise; both are errors, so no access grant is
produced; in particular the paths `/` and `/ACCESS` fail accordingly. -/
theorem c7_parseRequestPath_single_segment :
    (∀ (α : Type) (parseA : Str → Except α Access) (p s : Str),
        goSplitN '/' 4 (trimLead p ['/']) = [s] →
        (s = [] → parseRequestPath parseA p = Except.error ReqError.missingAccess) ∧
        (s ≠ [] → parseRequestPath parseA p = Except.error ReqError.missingBucket)) ∧
    (∀ (α : Type) (parseA : Str → Except α Access),
        parseRequestPath parseA "/".data = Except.error ReqError.missingAccess ∧
        parseRequestPath parseA "/ACCESS".data = Except.error ReqError.missingBucket) := by
  refine ⟨fun α parseA p s hseg => parseRequestPath_one_eval parseA p s hseg, ?_⟩
  intro α parseA
  exact ⟨(parseRequestPath_one_eval parseA "/".data [] (by decide)).1 rfl,
         (parseRequestPath_one_eval parseA "/ACCESS".data "ACCESS".data (by decide)).2
           (by decide)⟩

/-- Witness for C7 at a concrete always-succeeding decoder. -/
theorem c7_witness :
    parseRequestPath (fun _ => Except.ok (Access.mk []) : Str → Except Unit Access)
        "/".data = Except.error ReqError.missingAccess ∧
    parseRequestPath (fun _ => Except.ok (Access.mk []) : Str → Except Unit Access)
        "/ACCESS".data = Except.error ReqError.missingBucket :=
  c7_parseRequestPath_single_segment.2 Unit (fun _ => Except.ok (Access.mk []))

/-- A successful `splitFirst` decomposes its input around the separator. -/
theorem splitFirst_append {c : Char} {s a b : Str} (h : splitFirst c s = some (a, b)) :
    s = a ++ c :: b := by
  induction s generalizing a b with
  | nil => cases h
  | cons d ds ih =>
    by_cases hd : d = c
    · subst hd
      simp only [splitFirst, eq_self_iff_true, if_true, Option.some.injEq, Prod.mk.injEq] at h
      rw [← h.1, ← h.2]
      rfl
    · simp only [splitFirst, if_neg hd] at h
      cases hsf : splitFirst c ds with
      | none => rw [hsf] at h; cases h
      | some ab2 =>
        obtain ⟨a2, b2⟩ := ab2
        rw [hsf] at h
        simp only [Option.some.injEq, Prod.mk.injEq] at h
        rw [← h.1, ← h.2, List.cons_append, ← ih hsf]

/-- Rejoin split pieces with the separator. -/
def joinWith (c : Char) : List Str → Str
  | [] => []
  | [x] => x
  | x :: xs => x ++ c :: joinWith c xs

/-- `joinWith` on a cons with a non-empty tail. -/
theorem joinWith_cons (c : Char) (a : Str) (l : List Str) (h : l ≠ []) :
    joinWith c (a :: l) = a ++ c :: joinWith c l := by
  cases l with
  | nil => exact absurd rfl h
  | cons x xs => rfl

/-- A bounded split never produces the empty list of pieces. -/
theorem goSplitN_ne_nil (c : Char) (n : Nat) (s : Str) : goSplitN c (n + 1) s ≠ [] := by
  cases n with
  | zero => simp [goSplitN]
  | succ m =>
    show (match splitFirst c s with
      | none => [s]
      | some (a, b) => a :: goSplitN c (m + 1) b) ≠ []
    cases splitFirst c s with
    | none => simp
    | some ab => obtain ⟨a, b⟩ := ab; simp

/-- A bounded split produces at most the requested number of pieces. -/
theorem goSplitN_length (c : Char) (n : Nat) (s : Str) : (goSplitN c n s).length ≤ n := by
  induction n generalizing s with
  | zero => simp [goSplitN]
  | succ m ih =>
    cases m with
    | zero => simp [goSplitN]
    | succ k =>
      show (match splitFirst c s with
        | none => [s]
        | some (a, b) => a :: goSplitN c (k + 1) b).length ≤ k + 2
      cases splitFirst c s with
      | none => simp
      | some ab =>
        obtain ⟨a, b⟩ := ab
        simpa using ih b

/-- Joining a bounded split recovers the original string. -/
theorem joinWith_goSplitN (c : Char) (n : Nat) (s : Str) :
    joinWith c (goSplitN c (n + 1) s) = s := by
  induction n generalizing s with
  | zero => rfl
  | succ m ih =>
    show joinWith c (match splitFirst c s with
      | none => [s]
      | some (a, b) => a :: goSplitN c (m + 1) b) = s
    cases hsf : splitFirst c s with
    | none => rfl
    | some ab =>
      obtain ⟨a, b⟩ := ab
      rw [joinWith_cons c a _ (goSplitN_ne_nil c m b), ih b, ← splitFirst_append hsf]

/-- `goStarts` accepts its own front. -/
theorem goStarts_append (u v : Str) : goStarts (u ++ v) u = true := by
  induction u with
  | nil => cases v <;> rfl
  | cons c cs ih => simp [goStarts, ih]

/-- Everything contains the empty string. -/
theorem containsSub_nil (s : Str) : containsSub s [] = true := by
  cases s with
  | nil => rfl
  | cons c cs => simp [containsSub, goStarts]

/-- A string contains any of its middles. -/
theorem containsSub_append_middle (x sub y : Str) : containsSub (x ++ sub ++ y) sub = true := by
  induction x with
  | nil =>
    cases sub with
    | nil => simpa using containsSub_nil y
    | cons c cs => simpa [containsSub] using Or.inl (goStarts_append (c :: cs) y)
  | cons d ds ih => simpa [containsSub] using Or.inr ih

/-- Appending a character makes the string end in it. -/
theorem goEndsWith_append_single (s : Str) (c : Char) : goEndsWith (s ++ [c]) [c] = true := by
  unfold goEndsWith
  rw [List.reverse_append]
  simp [goStarts]

/-- The mapped bucket is empty exactly when the storage root is empty or
starts with a slash. -/
theorem determine_bucket_empty_iff (root urlPath : Str) :
    (determineBucketAndObjectKey root urlPath).1 = [] ↔
      root = [] ∨ root.head? = some '/' := by
  rw [determine_eq_spec]
  cases root with
  | nil => simp [specBucket]
  | cons c cs =>
    by_cases hc : c = '/'
    · subst hc
      simp [specBucket, List.takeWhile_cons]
    · simp [specBucket, List.takeWhile_cons, bne_iff_ne, hc]

/-- On a successful parse of a path with no doubled slash and no trailing
slash (after the leading-slash strip), the returned bucket is non-empty. -/
theorem parseRequestPath_bucket_ne_nil {α : Type} (parseA : Str → Except α Access)
    (p : Str) (res : Bool × Access × Str × Str × Str)
    (hp : parseRequestPath parseA p = Except.ok res)
    (h2 : containsSub (trimLead p ['/']) ['/', '/'] = false)
    (h3 : goEndsWith (trimLead p ['/']) ['/'] = false) :
    res.2.2.2.1 ≠ [] := by
  have hjoin := joinWith_goSplitN '/' 3 (trimLead p ['/'])
  have hlen := goSplitN_length '/' 4 (trimLead p ['/'])
  rcases hL : goSplitN '/' 4 (trimLead p ['/']) with _ | ⟨a, _ | ⟨b, _ | ⟨c3, _ | ⟨d4, tail⟩⟩⟩⟩
  · exact absurd hL (goSplitN_ne_nil '/' 3 _)
  · simp only [parseRequestPath, parseSegments, hL] at hp
    by_cases ha : a = []
    · simp [ha] at hp
    · simp [ha] at hp
  · rw [hL] at hjoin
    simp only [joinWith] at hjoin
    simp only [parseRequestPath, parseSegments, hL, List.headD_cons, List.drop_succ_cons,
      List.drop_zero, List.length_cons, List.length_nil, List.drop_nil, List.headD_nil,
      Nat.reduceAdd, reduceIte, ite_self] at hp
    cases hA : parseA a with
    | error e => simp [hA] at hp
    | ok acc =>
      simp only [hA, Except.ok.injEq] at hp
      rw [← hp]
      show b ≠ []
      intro hb
      subst hb
      rw [← hjoin, goEndsWith_append_single] at h3
      cases h3
  · rw [hL] at hjoin
    simp only [joinWith] at hjoin
    simp only [parseRequestPath, parseSegments, hL, List.headD_cons, List.drop_succ_cons,
      List.drop_zero, List.length_cons, List.length_nil, List.drop_nil, List.headD_nil,
      Nat.reduceAdd, reduceIte, ite_self] at hp
    cases hA : parseA a with
    | error e => simp [hA] at hp
    | ok acc =>
      simp only [hA, Except.ok.injEq] at hp
      rw [← hp]
      show b ≠ []
      intro hb
      subst hb
      simp only [List.nil_append] at hjoin
      have hmid := containsSub_append_middle a ['/', '/'] c3
      simp only [List.append_assoc, List.cons_append, List.nil_append] at hmid
      rw [hjoin, h2] at hmid
      cases hmid
  · cases tail with
    | cons e es =>
      rw [hL] at hlen
      simp at hlen
    | nil =>
      rw [hL] at hjoin
      simp only [joinWith] at hjoin
      simp only [parseRequestPath, parseSegments, hL] at hp
      by_cases hraw : a = "raw".data
      · simp only [hraw, eq_self_iff_true, if_true, List.headD_cons, List.drop_succ_cons,
          List.drop_zero, List.length_cons, List.length_nil, Nat.reduceAdd, reduceIte] at hp
        cases hA : parseA b with
        | error e => simp [hA] at hp
        | ok acc =>
          simp only [hA, Except.ok.injEq] at hp
          rw [← hp]
          show c3 ≠ []
          intro hc
          subst hc
          simp only [List.nil_append] at hjoin
          have hmid := containsSub_append_middle (a ++ '/' :: b) ['/', '/'] d4
          simp only [List.append_assoc, List.cons_append, List.nil_append] at hmid
          rw [hjoin, h2] at hmid
          cases hmid
      · simp only [if_neg hraw, List.headD_cons, List.drop_succ_cons,
          List.drop_zero, List.length_cons, List.length_nil, Nat.reduceAdd, reduceIte] at hp
        cases hA : parseA a with
        | error e => simp [hA] at hp
        | ok acc =>
          simp only [hA, Except.ok.injEq] at hp
          rw [← hp]
          show b ≠ []
          intro hb
          subst hb
          simp only [List.nil_append] at hjoin
          have hmid := containsSub_append_middle a ['/', '/'] (c3 ++ '/' :: d4)
          simp only [List.append_assoc, List.cons_append, List.nil_append] at hmid
          rw [hjoin, h2] at hmid
          cases hmid

/-- Claim C3 (amended): the bucket produced by `determineBucketAndObjectKey`
is empty exactly when the storage root is empty or starts with a slash, and
a successful `parseRequestPath` returns a non-empty bucket provided the
stripped request path contains no doubled slash and does not end in a
slash; without those provisos empty buckets are produced. -/
theorem c3_bucket_nonempty_amended :
    (∀ root urlPath : Str,
        ((determineBucketAndObjectKey root urlPath).1 = [] ↔
          root = [] ∨ root.head? = some '/')) ∧
    (∀ (α : Type) (parseA : Str → Except α Access) (p : Str)
        (res : Bool × Access × Str × Str × Str),
        parseRequestPath parseA p = Except.ok res →
        containsSub (trimLead p ['/']) ['/', '/'] = false →
        goEndsWith (trimLead p ['/']) ['/'] = false →
        res.2.2.2.1 ≠ []) :=
  ⟨determine_bucket_empty_iff,
   fun α parseA p res hp h2 h3 => parseRequestPath_bucket_ne_nil parseA p res hp h2 h3⟩

/-- Witness for C3 (amended) at a concrete clean path. -/
theorem c3_bucket_nonempty_witness :
    parseRequestPath (fun _ => Except.ok (Access.mk []) : Str → Except Unit Access)
        "/ACCESS/bucket/key".data =
      Except.ok (false, Access.mk [], "ACCESS".data, "bucket".data, "key".data) ∧
    ("bucket".data : Str) ≠ [] :=
  ⟨rfl,
   c3_bucket_nonempty_amended.2 Unit (fun _ => Except.ok (Access.mk []))
     "/ACCESS/bucket/key".data
     (false, Access.mk [], "ACCESS".data, "bucket".data, "key".data) rfl rfl rfl⟩

/-- Counterexample to C3 as stated: the path `/ACCESS//key` parses
successfully to a routing result whose bucket is the empty string, and a
storage root starting with a slash maps to an empty bucket. -/
theorem c3_counterexample :
    parseRequestPath (fun _ => Except.ok (Access.mk []) : Str → Except Unit Access)
        "/ACCESS//key".data =
      Except.ok (false, Access.mk [], "ACCESS".data, [], "key".data) ∧
    (determineBucketAndObjectKey "/stuff".data "/index.html".data).1 = [] :=
  ⟨rfl, rfl⟩

/-- The auth-service answer to resolving an access key id: a serialized
access grant plus the public flag. -/
structure AuthResponse where
  accessGrant : Str
  public : Bool
deriving DecidableEq

/-- Typed failures of `parseAccess`: `invalidAccess` is
`errs.New("invalid access")`, `nonPublicAccessKeyID` is
`errs.New("non-public access key id")`, `invalidAccessVersion` is
`errs.New("invalid access version")`; `resolverFailure` and
`uplinkParseFailure` wrap errors propagated unchanged from `cfg.Resolve`
and `uplink.ParseAccess`. -/
inductive CredError (ε : Type) where
  | invalidAccess
  | nonPublicAccessKeyID
  | invalidAccessVersion
  | resolverFailure (e : ε)
  | uplinkParseFailure (e : ε)
deriving DecidableEq

/-- The `versionAccessKeyID` constant of handler.go (line 330). -/
def versionAccessKeyID : Nat := 1

/-- Embeds `parseAccess` from handler.go (lines 332-351).  The base58
check-decoder, the auth-service resolver and the uplink access parser are
collaborator parameters; `checkDecode` returns the recovered version byte
and payload on success and `none` on decode failure. -/
def parseAccess {ε : Type} (checkDecode : Str → Option (Nat × Str))
    (resolve : Str → Except ε AuthResponse)
    (uplinkParseAccess : Str → Except ε Access)
    (access : Str) : Except (CredError ε) Access :=
  match checkDecode access with
  | none => .error .invalidAccess
  | some (version, _) =>
    let substituted : Except (CredError ε) Str :=
      if version = versionAccessKeyID then
        match resolve access with
        | .error e => .error (.resolverFailure e)
        | .ok authResp =>
          if authResp.public = false then .error .nonPublicAccessKeyID
          else .ok authResp.accessGrant
      else if version = 0 then .ok access
      else .error .invalidAccessVersion
    match substituted with
    | .error e => .error e
    | .ok acc =>
      match uplinkParseAccess acc with
      | .error e => .error (.uplinkParseFailure e)
      | .ok a => .ok a

/-- Claim C5: whenever the check-decode succeeds with a version byte that
is neither 0 nor 1, `parseAccess` fails with the unsupported-version error;
the result is the same for every resolver and every uplink parser, so
neither collaborator is consulted. -/
theorem c5_parseAccess_unsupported_version :
    ∀ (ε : Type) (checkDecode : Str → Option (Nat × Str))
      (resolve : Str → Except ε AuthResponse)
      (uplinkParseAccess : Str → Except ε Access)
      (access payload : Str) (version : Nat),
      checkDecode access = some (version, payload) →
      version ≠ 0 → version ≠ 1 →
      parseAccess checkDecode resolve uplinkParseAccess access =
        Except.error CredError.invalidAccessVersion := by
  intro ε checkDecode resolve uplinkParseAccess access payload version hcd h0 h1
  simp [parseAccess, hcd, versionAccessKeyID, h0, h1]

/-- Witness for C5 at a concrete decoder reporting version byte 7. -/
theorem c5_witness :
    parseAccess (fun _ => some (7, []))
      (fun _ => Except.error () : Str → Except Unit AuthResponse)
      (fun _ => Except.error ()) "TOKEN".data =
      Except.error CredError.invalidAccessVersion :=
  c5_parseAccess_unsupported_version Unit (fun _ => some (7, []))
    (fun _ => Except.error ()) (fun _ => Except.error ()) "TOKEN".data [] 7
    rfl (by decide) (by decide)

/-- Claim C6: on version byte 1, a resolver answer flagged non-public makes
`parseAccess` fail with the non-public error (no grant is ever built from
the resolved serialized access), while a public-flagged answer has its
serialized access substituted and handed to the uplink parser, whose
outcome is returned. -/
theorem c6_parseAccess_non_public :
    ∀ (ε : Type) (checkDecode : Str → Option (Nat × Str))
      (resolve : Str → Except ε AuthResponse)
      (uplinkParseAccess : Str → Except ε Access)
      (access payload g : Str),
      checkDecode access = some (1, payload) →
      (resolve access = Except.ok (AuthResponse.mk g false) →
        parseAccess checkDecode resolve uplinkParseAccess access =
          Except.error CredError.nonPublicAccessKeyID) ∧
      (∀ a : Access, resolve access = Except.ok (AuthResponse.mk g true) →
        uplinkParseAccess g = Except.ok a →
        parseAccess checkDecode resolve uplinkParseAccess access = Except.ok a) ∧
      (∀ e : ε, resolve access = Except.ok (AuthResponse.mk g true) →
        uplinkParseAccess g = Except.error e →
        parseAccess checkDecode resolve uplinkParseAccess access =
          Except.error (CredError.uplinkParseFailure e)) := by
  intro ε checkDecode resolve uplinkParseAccess access payload g hcd
  refine ⟨?_, ?_, ?_⟩
  · intro hres
    simp [parseAccess, hcd, versionAccessKeyID, hres]
  · intro a hres hup
    simp [parseAccess, hcd, versionAccessKeyID, hres, hup]
  · intro e hres hup
    simp [parseAccess, hcd, versionAccessKeyID, hres, hup]

/-- Witness for C6 at a concrete non-public resolver answer. -/
theorem c6_witness :
    parseAccess (fun _ => some (1, []))
      (fun _ => Except.ok (AuthResponse.mk "GRANT".data false) :
        Str → Except Unit AuthResponse)
      (fun _ => Except.ok (Access.mk [])) "KEYID".data =
      Except.error CredError.nonPublicAccessKeyID :=
  (c6_parseAccess_non_public Unit (fun _ => some (1, []))
    (fun _ => Except.ok (AuthResponse.mk "GRANT".data false))
    (fun _ => Except.ok (Access.mk [])) "KEYID".data [] "GRANT".data rfl).1 rfl

/-- The failure kinds of Go `net.SplitHostPort`.  The exact punctuation of
the three bracket messages is irrelevant here and paraphrased; what matters
for `compareHosts` is that only the missing-port message contains the text
`missing port in address`. -/
inductive AddrErrKind where
  | missingPort
  | tooManyColons
  | missingCloseBracket
  | unexpectedOpenBracket
  | unexpectedCloseBracket
deriving DecidableEq

/-- A Go `net.AddrError`: the offending address and the failure kind. -/
structure AddrError where
  addr : Str
  kind : AddrErrKind
deriving DecidableEq

/-- The missing-port message fragment that `compareHosts` looks for. -/
def missingPortText : Str := "missing port in address".data

/-- The message fragment of each failure kind. -/
def AddrErrKind.msg : AddrErrKind → Str
  | .missingPort => missingPortText
  | .tooManyColons => "too many colons in address".data
  | .missingCloseBracket => "missing close bracket in address".data
  | .unexpectedOpenBracket => "unexpected open bracket in address".data
  | .unexpectedCloseBracket => "unexpected close bracket in address".data

/-- The rendered error text of a Go `net.AddrError`:
`"address " + addr + ": " + message`. -/
def AddrError.message (e : AddrError) : Str :=
  "address ".data ++ e.addr ++ ": ".data ++ e.kind.msg

/-- Split at the last occurrence of `c`: `breakLast c s = some (a, b)` when
`s = a ++ c :: b` with `c` not occurring in `b`; `none` when `c` does not
occur. -/
def breakLast (c : Char) (s : Str) : Option (Str × Str) :=
  match splitFirst c s.reverse with
  | none => none
  | some (a, b) => some (b.reverse, a.reverse)

/-- Embeds Go `net.SplitHostPort`: the port starts after the last colon; a
leading `[` requires the first `]` to sit immediately before that colon,
and brackets are rejected anywhere else. -/
def goSplitHostPort (s : Str) : Except AddrError (Str × Str) :=
  match breakLast ':' s with
  | none => .error ⟨s, .missingPort⟩
  | some (beforeColon, port) =>
    if s.head? = some '[' then
      match splitFirst ']' s with
      | none => .error ⟨s, .missingCloseBracket⟩
      | some (pre, post) =>
        if post = [] then .error ⟨s, .missingPort⟩
        else if post = ':' :: port then
          if '[' ∈ s.drop 1 then .error ⟨s, .unexpectedOpenBracket⟩
          else if ']' ∈ post then .error ⟨s, .unexpectedCloseBracket⟩
          else .ok (pre.drop 1, port)
        else if post.head? = some ':' then .error ⟨s, .tooManyColons⟩
        else .error ⟨s, .missingPort⟩
    else
      if ':' ∈ beforeColon then .error ⟨s, .tooManyColons⟩
      else if '[' ∈ s then .error ⟨s, .unexpectedOpenBracket⟩
      else if ']' ∈ s then .error ⟨s, .unexpectedCloseBracket⟩
      else .ok (beforeColon, port)

/-- The lenient port strip shared by `compareHosts` (handler.go lines
137-151) and `handleHostingService` (lines 423-430): take the host half of
`net.SplitHostPort`, fall back to the full input when the error message
contains `missing port in address`, and surface any other error. -/
def hostOnly (s : Str) : Except AddrError Str :=
  match goSplitHostPort s with
  | .ok (h, _) => .ok h
  | .error e => if containsSub e.message missingPortText then .ok s else .error e

/-- Embeds `compareHosts` from handler.go (lines 137-157). -/
def compareHosts (u1 u2 : Str) : Except AddrError Bool :=
  match hostOnly u1 with
  | .error e => .error e
  | .ok h1 =>
    match hostOnly u2 with
    | .error e => .error e
    | .ok h2 => .ok (h1 == h2)

/-- `splitFirst` lands on an explicitly placed first separator. -/
theorem splitFirst_append_of_not_mem {c : Char} {a b : Str} (h : c ∉ a) :
    splitFirst c (a ++ c :: b) = some (a, b) := by
  induction a with
  | nil => simp [splitFirst]
  | cons d ds ih =>
    simp only [List.mem_cons, not_or] at h
    simp only [List.cons_append, splitFirst, if_neg (fun e : d = c => h.1 e.symm),
      List.append_eq, ih h.2]

/-- `breakLast` lands on an explicitly placed last separator. -/
theorem breakLast_of_not_mem {c : Char} {a b : Str} (h : c ∉ b) :
    breakLast c (a ++ c :: b) = some (a, b) := by
  unfold breakLast
  have hrev : (a ++ c :: b).reverse = b.reverse ++ c :: a.reverse := by
    simp
  rw [hrev, splitFirst_append_of_not_mem (by simpa using h)]
  simp

/-- `breakLast` finds nothing when the separator does not occur. -/
theorem breakLast_of_not_mem_none {c : Char} {s : Str} (h : c ∉ s) :
    breakLast c s = none := by
  unfold breakLast
  rw [splitFirst_of_not_mem (by simpa using h)]

/-- A colon-free address has no port to split off. -/
theorem goSplitHostPort_no_colon {s : Str} (h : ':' ∉ s) :
    goSplitHostPort s = Except.error (AddrError.mk s AddrErrKind.missingPort) := by
  simp [goSplitHostPort, breakLast_of_not_mem_none h]

/-- A string contains its own suffixes. -/
theorem containsSub_suffix (x sub : Str) : containsSub (x ++ sub) sub = true := by
  simpa using containsSub_append_middle x sub []

/-- Every missing-port error message contains the missing-port text. -/
theorem message_missingPort_contains (sAddr : Str) :
    containsSub (AddrError.mk sAddr AddrErrKind.missingPort).message missingPortText =
      true := by
  unfold AddrError.message AddrErrKind.msg
  exact containsSub_suffix _ _

/-- The lenient strip keeps a colon-free address whole. -/
theorem hostOnly_no_colon {s : Str} (h : ':' ∉ s) : hostOnly s = Except.ok s := by
  simp [hostOnly, goSplitHostPort_no_colon h, message_missingPort_contains]

/-- Splitting a colon- and bracket-free host with an appended port. -/
theorem goSplitHostPort_plain {host port : Str}
    (h1 : ':' ∉ host) (h2 : '[' ∉ host) (h3 : ']' ∉ host)
    (h4 : ':' ∉ port) (h5 : '[' ∉ port) (h6 : ']' ∉ port) :
    goSplitHostPort (host ++ ':' :: port) = Except.ok (host, port) := by
  have hb : breakLast ':' (host ++ ':' :: port) = some (host, port) :=
    breakLast_of_not_mem h4
  have hhd : ¬(host ++ ':' :: port).head? = some '[' := by
    cases host with
    | nil => simp
    | cons c cs =>
      simp only [List.cons_append, List.head?_cons, Option.some.injEq]
      intro hc
      rw [hc] at h2
      exact h2 (List.mem_cons_self _ _)
  have hlb : '[' ∉ host ++ ':' :: port := by
    intro hm
    rcases List.mem_append.mp hm with hm | hm
    · exact h2 hm
    · rcases List.mem_cons.mp hm with he | hm2
      · exact absurd he (by decide)
      · exact h5 hm2
  have hrb : ']' ∉ host ++ ':' :: port := by
    intro hm
    rcases List.mem_append.mp hm with hm | hm
    · exact h3 hm
    · rcases List.mem_cons.mp hm with he | hm2
      · exact absurd he (by decide)
      · exact h6 hm2
  simp only [goSplitHostPort, hb, if_neg hhd, if_neg h1, if_neg hlb, if_neg hrb]

/-- Splitting a bracketed IPv6 literal with an appended port. -/
theorem goSplitHostPort_bracket {inner port : Str}
    (h2 : '[' ∉ inner) (h3 : ']' ∉ inner)
    (h4 : ':' ∉ port) (h5 : '[' ∉ port) (h6 : ']' ∉ port) :
    goSplitHostPort ('[' :: inner ++ ']' :: ':' :: port) = Except.ok (inner, port) := by
  have hb : breakLast ':' ('[' :: inner ++ ']' :: ':' :: port) =
      some ('[' :: inner ++ [']'], port) := by
    have hmain := @breakLast_of_not_mem ':' ('[' :: inner ++ [']']) port h4
    simpa [List.append_assoc] using hmain
  have hph : ('[' :: inner ++ ']' :: ':' :: port).head? = some '[' := by
    simp
  have hsf : splitFirst ']' ('[' :: inner ++ ']' :: ':' :: port) =
      some ('[' :: inner, ':' :: port) := by
    apply splitFirst_append_of_not_mem
    intro hm
    rcases List.mem_cons.mp hm with he | hm2
    · exact absurd he (by decide)
    · exact h3 hm2
  have hdrop : ('[' :: inner ++ ']' :: ':' :: port).drop 1 =
      inner ++ ']' :: ':' :: port := by
    simp
  have hlb : '[' ∉ inner ++ ']' :: ':' :: port := by
    intro hm
    rcases List.mem_append.mp hm with hm | hm
    · exact h2 hm
    · rcases List.mem_cons.mp hm with he | hm2
      · exact absurd he (by decide)
      · rcases List.mem_cons.mp hm2 with he | hm3
        · exact absurd he (by decide)
        · exact h5 hm3
  have hrb : ']' ∉ ':' :: port := by
    intro hm
    rcases List.mem_cons.mp hm with he | hm2
    · exact absurd he (by decide)
    · exact h6 hm2
  simp only [goSplitHostPort, hb, if_pos hph, hsf, if_neg (List.cons_ne_nil ':' port),
    eq_self_iff_true, if_true, hdrop, if_neg hlb, if_neg hrb, List.drop_succ_cons,
    List.drop_zero]

/-- The lenient strip of a plain host with a port keeps only the host. -/
theorem hostOnly_plain {host port : Str}
    (h1 : ':' ∉ host) (h2 : '[' ∉ host) (h3 : ']' ∉ host)
    (h4 : ':' ∉ port) (h5 : '[' ∉ port) (h6 : ']' ∉ port) :
    hostOnly (host ++ ':' :: port) = Except.ok host := by
  simp [hostOnly, goSplitHostPort_plain h1 h2 h3 h4 h5 h6]

/-- The lenient strip of a bracketed literal with a port keeps the inner
host without brackets. -/
theorem hostOnly_bracket {inner port : Str}
    (h2 : '[' ∉ inner) (h3 : ']' ∉ inner)
    (h4 : ':' ∉ port) (h5 : '[' ∉ port) (h6 : ']' ∉ port) :
    hostOnly ('[' :: inner ++ ']' :: ':' :: port) = Except.ok inner := by
  have hg := goSplitHostPort_bracket h2 h3 h4 h5 h6
  simp only [List.cons_append] at hg ⊢
  simp [hostOnly, hg]

/-- Claim C4 (amended): `compareHosts(h, h)` is true whenever the lenient
port strip of `h` itself succeeds; `compareHosts(h + ":443", h)` and
`compareHosts(h + ":443", h + ":880")` are true for every `h` free of
colons and brackets; bracketed IPv6 literals with ports on both sides
compare equal across differing ports; two inputs whose stripped hosts
differ compare false; a failing strip whose message lacks the text
`missing port in address` is returned as the error, and every
`goSplitHostPort` failure without that text is such a failing strip.
(As literally stated the claim is false: bare `[::1]` keeps its brackets
while `[::1]:443` strips to `::1`, and `compareHosts("::1", "::1")`
errors.) -/
theorem c4_compareHosts_amended :
    (∀ (u h1 : Str), hostOnly u = Except.ok h1 → compareHosts u u = Except.ok true) ∧
    (∀ host : Str, ':' ∉ host → '[' ∉ host → ']' ∉ host →
        compareHosts (host ++ ':' :: "443".data) host = Except.ok true ∧
        compareHosts (host ++ ':' :: "443".data) (host ++ ':' :: "880".data) =
          Except.ok true) ∧
    (∀ inner : Str, '[' ∉ inner → ']' ∉ inner →
        compareHosts ('[' :: inner ++ ']' :: ':' :: "443".data)
          ('[' :: inner ++ ']' :: ':' :: "880".data) = Except.ok true) ∧
    (∀ (u1 u2 h1 h2 : Str), hostOnly u1 = Except.ok h1 → hostOnly u2 = Except.ok h2 →
        h1 ≠ h2 → compareHosts u1 u2 = Except.ok false) ∧
    (∀ (u1 u2 : Str) (e : AddrError), hostOnly u1 = Except.error e →
        compareHosts u1 u2 = Except.error e) ∧
    (∀ (u1 u2 h1 : Str) (e : AddrError), hostOnly u1 = Except.ok h1 →
        hostOnly u2 = Except.error e → compareHosts u1 u2 = Except.error e) ∧
    (∀ (s : Str) (e : AddrError), goSplitHostPort s = Except.error e →
        containsSub e.message missingPortText = false →
        hostOnly s = Except.error e) := by
  refine ⟨?_, ?_, ?_, ?_, ?_, ?_, ?_⟩
  · intro u h1 h
    simp [compareHosts, h]
  · intro host hc hl hr
    have hp1 := @hostOnly_plain host "443".data hc hl hr
      (by decide) (by decide) (by decide)
    have hp2 := @hostOnly_plain host "880".data hc hl hr
      (by decide) (by decide) (by decide)
    have hh := hostOnly_no_colon hc
    exact ⟨by simp [compareHosts, hp1, hh], by simp [compareHosts, hp1, hp2]⟩
  · intro inner hl hr
    have b1 := @hostOnly_bracket inner "443".data hl hr
      (by decide) (by decide) (by decide)
    have b2 := @hostOnly_bracket inner "880".data hl hr
      (by decide) (by decide) (by decide)
    simp at b1 b2
    simp [compareHosts, b1, b2]
  · intro u1 u2 h1 h2 e1 e2 hne
    have hb : (h1 == h2) = false := beq_eq_false_iff_ne.mpr hne
    simp [compareHosts, e1, e2, hb]
  · intro u1 u2 e he
    simp [compareHosts, he]
  · intro u1 u2 h1 e hok herr
    simp [compareHosts, hok, herr]
  · intro s e hsp hc
    simp [hostOnly, hsp, hc]

/-- Witness for C4 (amended) at the hosts of the Go unit test. -/
theorem c4_witness :
    compareHosts "website.test".data "website.test".data = Except.ok true ∧
    compareHosts ("website.test".data ++ ':' :: "443".data) "website.test".data =
      Except.ok true ∧
    compareHosts ("website.test".data ++ ':' :: "443".data)
      ("website.test".data ++ ':' :: "880".data) = Except.ok true ∧
    compareHosts ('[' :: "::1".data ++ ']' :: ':' :: "443".data)
      ('[' :: "::1".data ++ ']' :: ':' :: "880".data) = Except.ok true ∧
    compareHosts "website.test".data "site.test".data = Except.ok false :=
  ⟨c4_compareHosts_amended.1 "website.test".data "website.test".data rfl,
   (c4_compareHosts_amended.2.1 "website.test".data (by decide) (by decide) (by decide)).1,
   (c4_compareHosts_amended.2.1 "website.test".data (by decide) (by decide) (by decide)).2,
   c4_compareHosts_amended.2.2.1 "::1".data (by decide) (by decide),
   c4_compareHosts_amended.2.2.2.1 "website.test".data "site.test".data
     "website.test".data "site.test".data rfl rfl (by decide)⟩

/-- Counterexample to C4 as stated: for `h = "[::1]"`,
`compareHosts(h + ":443", h)` is `(false, nil)` rather than true, because
the bracketed form with a port strips to `::1` while the bare bracketed
form is kept whole by the missing-port fallback; and for `h = "::1"`,
`compareHosts(h, h)` returns a too-many-colons error rather than true. -/
theorem c4_counterexample :
    compareHosts "[::1]:443".data "[::1]".data = Except.ok false ∧
    compareHosts "::1".data "::1".data =
      Except.error (AddrError.mk "::1".data AddrErrKind.tooManyColons) :=
  ⟨rfl, rfl⟩

/-- Uplink SDK failures visible to the handler: the two classified errors
and an unclassified internal one. -/
inductive UplinkErr where
  | bucketNotFound
  | objectNotFound
  | internalErr
deriving DecidableEq

/-- Metadata of a statted object; only the key matters to the routing
layer (it feeds the single-object page). -/
structure ObjInfo where
  key : Str
deriving DecidableEq

/-- What a request handler writes to the HTTP response writer:
`noResponse` when the handler returns without writing, `httpError` for
`http.Error`, `redirect` for `http.Redirect`, `content` for
`httpranger.ServeContent` on the given key, `singleObjectPage` for the
single-object template, `listingPage` for the prefix-listing template
(`servePrefix` with the given bucket and real prefix), `notFoundPage` for
the 404 template, and `internalError` for the logged 500. -/
inductive Response where
  | noResponse
  | httpError (status : Nat) (msg : Str)
  | redirect (status : Nat) (location : Str)
  | content (key : Str)
  | singleObjectPage (key : Str)
  | listingPage (bucket pfx : Str)
  | notFoundPage (msg : Str)
  | internalError
deriving DecidableEq

/-- Embeds `handleUplinkErr` from handler.go (lines 310-328). -/
def handleUplinkErr : UplinkErr → Response
  | .bucketNotFound => .notFoundPage "Oops! Bucket not found.".data
  | .objectNotFound => .notFoundPage "Oops! Object not found.".data
  | .internalErr => .internalError

/-- Collaborators of `handleHostingService`: the TXT-record fetch
(returning an access grant and storage root for a host, `none` on
failure), project open, object stat and prefix listing. -/
structure HostingDeps where
  fetchAccessForHost : Str → Option (Access × Str)
  openProject : Access → Except UplinkErr Unit
  statObject : Str → Str → Except UplinkErr ObjInfo
  listObjects : Str → Str → Except UplinkErr Unit

/-- The shared `index.html` probe and listing fallback reached by
`handleHostingService` once the key is empty or is a not-found directory
key (handler.go lines 465-483). -/
def indexFallback (d : HostingDeps) (bucket key : Str) : Response :=
  let k := key ++ "index.html".data
  match d.statObject bucket k with
  | .ok _ => .content k
  | .error e =>
    if e = .objectNotFound then
      match d.listObjects bucket key with
      | .error e2 => handleUplinkErr e2
      | .ok _ => .listingPage bucket key
    else handleUplinkErr e

/-- Embeds `handleHostingService` from handler.go (lines 422-484).  The
host port strip is the same lenient strip as in `compareHosts`; a failing
strip or TXT lookup is the logged 500. -/
def handleHostingService (d : HostingDeps) (rHost urlPath : Str) : Response :=
  match hostOnly rHost with
  | .error _ => .internalError
  | .ok host =>
    match d.fetchAccessForHost host with
    | none => .internalError
    | some (access, root) =>
      match d.openProject access with
      | .error e => handleUplinkErr e
      | .ok _ =>
        let bk := determineBucketAndObjectKey root urlPath
        let bucket := bk.1
        let key := bk.2
        if key ≠ [] then
          match d.statObject bucket key with
          | .ok _ => .content key
          | .error e =>
            if goEndsWith key ['/'] = false ∨ e ≠ .objectNotFound then handleUplinkErr e
            else indexFallback d bucket key
        else indexFallback d bucket key

/-- Collaborators of `handleTraditional`: the credential decoder, project
open, object stat, prefix listing, object-IP lookup and the canonical
location builder (`makeLocation` over the configured URL base, kept
abstract). -/
structure TradDeps where
  parseA : Str → Except Unit Access
  openProject : Access → Except UplinkErr Unit
  statObject : Str → Str → Except UplinkErr ObjInfo
  listObjects : Str → Str → Except UplinkErr Unit
  getObjectIPs : Str → Str → Except UplinkErr Unit
  makeLocation : Str → Str

/-- An incoming HTTP request as the handler sees it: method, `Host`
header, URL path, and the presence of the `download` and `view` query
flags. -/
structure Request where
  method : Str
  host : Str
  path : Str
  download : Bool
  view : Bool

/-- Embeds `handleTraditional` from handler.go (lines 160-255).  The
400 message elides the wrapped parse-error text. -/
def handleTraditional (d : TradDeps) (r : Request) (locationOnly : Bool) : Response :=
  match parseRequestPath d.parseA r.path with
  | .error _ => .httpError 400 "invalid request".data
  | .ok (rawRequest, access, _serializedAccess, bucket, key) =>
    match d.openProject access with
    | .error e => handleUplinkErr e
    | .ok _ =>
      if key = [] ∨ goEndsWith key ['/'] = true then
        if goEndsWith r.path ['/'] = false then
          .redirect 301 (r.path ++ ['/'])
        else
          match d.listObjects bucket key with
          | .error e => handleUplinkErr e
          | .ok _ => .listingPage bucket key
      else
        match d.statObject bucket key with
        | .error e => handleUplinkErr e
        | .ok o =>
          if locationOnly then .redirect 302 (d.makeLocation r.path)
          else if r.download = false ∧ r.view = false ∧ rawRequest = false then
            match d.getObjectIPs bucket key with
            | .error e => handleUplinkErr e
            | .ok _ => .singleObjectPage o.key
          else .content key

/-- The full handler configuration: both dependency bundles plus the
configured base host. -/
structure ServeDeps where
  trad : TradDeps
  hosting : HostingDeps
  baseHost : Str

/-- Embeds `serveHTTP` from handler.go (lines 109-135): a failing host
comparison returns without writing; a foreign host goes to the hosting
service before any method check; on the base host, HEAD means
location-only, GET means full service, anything else is the 405. -/
def serveHTTP (d : ServeDeps) (r : Request) : Response :=
  match compareHosts r.host d.baseHost with
  | .error _ => .noResponse
  | .ok equal =>
    if equal = false then handleHostingService d.hosting r.host r.path
    else
      if r.method = "HEAD".data then handleTraditional d.trad r true
      else if r.method = "GET".data then handleTraditional d.trad r false
      else .httpError 405 "method not allowed".data

/-- Claim C8: on the base host, a HEAD request whose path parses to an
existing object (key non-empty, no trailing slash, project opens, stat
succeeds) is answered with a 302 redirect to the canonical location built
by `makeLocation`, and never with a content body. -/
theorem c8_head_redirects :
    ∀ (d : ServeDeps) (r : Request) (raw : Bool) (a : Access) (sa bucket key : Str)
      (o : ObjInfo),
      compareHosts r.host d.baseHost = Except.ok true →
      r.method = "HEAD".data →
      parseRequestPath d.trad.parseA r.path = Except.ok (raw, a, sa, bucket, key) →
      key ≠ [] → goEndsWith key ['/'] = false →
      d.trad.openProject a = Except.ok () →
      d.trad.statObject bucket key = Except.ok o →
      serveHTTP d r = Response.redirect 302 (d.trad.makeLocation r.path) ∧
      ∀ body : Str, serveHTTP d r ≠ Response.content body := by
  intro d r raw a sa bucket key o hcmp hm hp hk hks hop hst
  have hmain : serveHTTP d r = Response.redirect 302 (d.trad.makeLocation r.path) := by
    simp [serveHTTP, hcmp, hm, handleTraditional, hp, hop, hst, hk, hks]
  exact ⟨hmain, fun body => by rw [hmain]; simp⟩

/-- Witness for C8 at a fully concrete handler configuration. -/
theorem c8_witness :
    serveHTTP
      (ServeDeps.mk
        (TradDeps.mk (fun _ => Except.ok (Access.mk []))
          (fun _ => Except.ok ()) (fun _ _ => Except.ok (ObjInfo.mk "key".data))
          (fun _ _ => Except.ok ()) (fun _ _ => Except.ok ())
          (fun p => "https://link.test".data ++ p))
        (HostingDeps.mk (fun _ => none) (fun _ => Except.ok ())
          (fun _ _ => Except.error UplinkErr.objectNotFound) (fun _ _ => Except.ok ()))
        "link.test".data)
      (Request.mk "HEAD".data "link.test".data "/ACC/bucket/key".data false false) =
      Response.redirect 302 ("https://link.test".data ++ "/ACC/bucket/key".data) :=
  (c8_head_redirects
    (ServeDeps.mk
      (TradDeps.mk (fun _ => Except.ok (Access.mk []))
        (fun _ => Except.ok ()) (fun _ _ => Except.ok (ObjInfo.mk "key".data))
        (fun _ _ => Except.ok ()) (fun _ _ => Except.ok ())
        (fun p => "https://link.test".data ++ p))
      (HostingDeps.mk (fun _ => none) (fun _ => Except.ok ())
        (fun _ _ => Except.error UplinkErr.objectNotFound) (fun _ _ => Except.ok ()))
      "link.test".data)
    (Request.mk "HEAD".data "link.test".data "/ACC/bucket/key".data false false)
    false (Access.mk []) "ACC".data "bucket".data "key".data
    (ObjInfo.mk "key".data) rfl rfl rfl (by decide) rfl rfl rfl).1

/-- Claim C9: in hosting-service mode with a resolved root, a non-empty
mapped key is statted and served first; a stat failure is surfaced
immediately unless the key ends in a slash and the failure is not-found,
in which case (as with an empty key) the handler probes `key + index.html`
and serves it when found, lists the mapped prefix when the probe is
not-found, and surfaces any other probe failure. -/
theorem c9_hosting_resolution_order :
    ∀ (d : HostingDeps) (rHost urlPath host root bucket key : Str) (a : Access),
      hostOnly rHost = Except.ok host →
      d.fetchAccessForHost host = some (a, root) →
      d.openProject a = Except.ok () →
      determineBucketAndObjectKey root urlPath = (bucket, key) →
      ((∀ o : ObjInfo, key ≠ [] → d.statObject bucket key = Except.ok o →
          handleHostingService d rHost urlPath = Response.content key) ∧
       (∀ e : UplinkErr, key ≠ [] → d.statObject bucket key = Except.error e →
          goEndsWith key ['/'] = false ∨ e ≠ UplinkErr.objectNotFound →
          handleHostingService d rHost urlPath = handleUplinkErr e) ∧
       (key ≠ [] → goEndsWith key ['/'] = true →
          d.statObject bucket key = Except.error UplinkErr.objectNotFound →
          handleHostingService d rHost urlPath = indexFallback d bucket key) ∧
       (key = [] → handleHostingService d rHost urlPath = indexFallback d bucket key) ∧
       (∀ o : ObjInfo, d.statObject bucket (key ++ "index.html".data) = Except.ok o →
          indexFallback d bucket key = Response.content (key ++ "index.html".data)) ∧
       (d.statObject bucket (key ++ "index.html".data) =
            Except.error UplinkErr.objectNotFound →
          d.listObjects bucket key = Except.ok () →
          indexFallback d bucket key = Response.listingPage bucket key) ∧
       (∀ e : UplinkErr, d.statObject bucket (key ++ "index.html".data) = Except.error e →
          e ≠ UplinkErr.objectNotFound →
          indexFallback d bucket key = handleUplinkErr e)) := by
  intro d rHost urlPath host root bucket key a hh hf hop hbk
  refine ⟨?_, ?_, ?_, ?_, ?_, ?_, ?_⟩
  · intro o hk hst
    simp [handleHostingService, hh, hf, hop, hbk, hk, hst]
  · intro e hk hst hcond
    simp [handleHostingService, hh, hf, hop, hbk, hk, hst, hcond]
  · intro hk hks hst
    simp [handleHostingService, hh, hf, hop, hbk, hk, hst, hks]
  · intro hk
    simp [handleHostingService, hh, hf, hop, hbk, hk]
  · intro o hst
    simp [indexFallback, hst]
  · intro hst hls
    simp [indexFallback, hst, hls]
  · intro e hst hne
    simp [indexFallback, hst, hne]

/-- Witness for C9 at a fully concrete hosting configuration. -/
theorem c9_witness :
    handleHostingService
      (HostingDeps.mk (fun _ => some (Access.mk [], "bucket/prefix".data))
        (fun _ => Except.ok ()) (fun _ _ => Except.ok (ObjInfo.mk "x".data))
        (fun _ _ => Except.ok ()))
      "files.example.test".data "/pic.jpg".data =
      Response.content "prefix/pic.jpg".data :=
  (c9_hosting_resolution_order
    (HostingDeps.mk (fun _ => some (Access.mk [], "bucket/prefix".data))
      (fun _ => Except.ok ()) (fun _ _ => Except.ok (ObjInfo.mk "x".data))
      (fun _ _ => Except.ok ()))
    "files.example.test".data "/pic.jpg".data "files.example.test".data
    "bucket/prefix".data "bucket".data "prefix/pic.jpg".data (Access.mk [])
    rfl rfl rfl rfl).1 (ObjInfo.mk "x".data) (by decide) rfl

/-- `handleUplinkErr` writes a 404 page or the logged 500, never an
`http.Error` status page. -/
theorem handleUplinkErr_ne_httpError (e : UplinkErr) (c : Nat) (m : Str) :
    handleUplinkErr e ≠ Response.httpError c m := by
  cases e <;> simp [handleUplinkErr]

/-- The index fallback never writes an `http.Error` status page. -/
theorem indexFallback_ne_httpError (d : HostingDeps) (bucket key : Str) (c : Nat)
    (m : Str) : indexFallback d bucket key ≠ Response.httpError c m := by
  unfold indexFallback
  cases hst : d.statObject bucket (key ++ "index.html".data) with
  | ok o => simp [hst]
  | error e =>
    by_cases he : e = UplinkErr.objectNotFound
    · cases hls : d.listObjects bucket key with
      | error e2 =>
        simp only [hst, he, eq_self_iff_true, if_true, hls]
        exact handleUplinkErr_ne_httpError e2 c m
      | ok u => simp [hst, he, hls]
    · simp only [hst, if_neg he]
      exact handleUplinkErr_ne_httpError e c m

/-- The hosting-service flow never writes an `http.Error` status page; in
particular it never produces the 405. -/
theorem hosting_ne_httpError (d : HostingDeps) (h p : Str) (c : Nat) (m : Str) :
    handleHostingService d h p ≠ Response.httpError c m := by
  unfold handleHostingService
  cases hh : hostOnly h with
  | error e => simp [hh]
  | ok host =>
    cases hf : d.fetchAccessForHost host with
    | none => simp [hh, hf]
    | some ar =>
      obtain ⟨a, root⟩ := ar
      cases hop : d.openProject a with
      | error e =>
        simp only [hh, hf, hop]
        exact handleUplinkErr_ne_httpError e c m
      | ok u =>
        cases u
        rcases hbk : determineBucketAndObjectKey root p with ⟨bucket, key⟩
        simp only [hh, hf, hop, hbk]
        by_cases hk : key = []
        · rw [if_neg (by simp [hk])]
          exact indexFallback_ne_httpError d bucket key c m
        · rw [if_pos hk]
          cases hst : d.statObject bucket key with
          | ok o => simp
          | error e =>
            show (if goEndsWith key ['/'] = false ∨ e ≠ UplinkErr.objectNotFound then
                handleUplinkErr e
              else indexFallback d bucket key) ≠ Response.httpError c m
            by_cases hcond : goEndsWith key ['/'] = false ∨ e ≠ UplinkErr.objectNotFound
            · rw [if_pos hcond]
              exact handleUplinkErr_ne_httpError e c m
            · rw [if_neg hcond]
              exact indexFallback_ne_httpError d bucket key c m

/-- Claim C10: a request whose host differs from the base host is handed
to the hosting-service flow whatever its method, and the
method-not-allowed error can only arise when the hosts compare equal,
since the host branch precedes the method switch. -/
theorem c10_hosting_before_method_check :
    (∀ (d : ServeDeps) (r : Request),
        compareHosts r.host d.baseHost = Except.ok false →
        serveHTTP d r = handleHostingService d.hosting r.host r.path) ∧
    (∀ (d : ServeDeps) (r : Request),
        serveHTTP d r = Response.httpError 405 "method not allowed".data →
        compareHosts r.host d.baseHost = Except.ok true) := by
  constructor
  · intro d r h
    simp [serveHTTP, h]
  · intro d r h
    cases hc : compareHosts r.host d.baseHost with
    | error e =>
      simp [serveHTTP, hc] at h
    | ok equal =>
      cases equal with
      | true => rfl
      | false =>
        simp only [serveHTTP, hc] at h
        simp only [eq_self_iff_true, if_true] at h
        exact absurd h (hosting_ne_httpError _ _ _ _ _)

/-- Witness for C10: a POST to a foreign host is dispatched to the hosting
flow. -/
theorem c10_witness :
    serveHTTP
      (ServeDeps.mk
        (TradDeps.mk (fun _ => Except.error ()) (fun _ => Except.ok ())
          (fun _ _ => Except.error UplinkErr.objectNotFound) (fun _ _ => Except.ok ())
          (fun _ _ => Except.ok ()) (fun p => p))
        (HostingDeps.mk (fun _ => none) (fun _ => Except.ok ())
          (fun _ _ => Except.error UplinkErr.objectNotFound) (fun _ _ => Except.ok ()))
        "b.test".data)
      (Request.mk "POST".data "a.test".data "/x".data false false) =
      handleHostingService
        (HostingDeps.mk (fun _ => none) (fun _ => Except.ok ())
          (fun _ _ => Except.error UplinkErr.objectNotFound) (fun _ _ => Except.ok ()))
        "a.test".data "/x".data :=
  c10_hosting_before_method_check.1
    (ServeDeps.mk
      (TradDeps.mk (fun _ => Except.error ()) (fun _ => Except.ok ())
        (fun _ _ => Except.error UplinkErr.objectNotFound) (fun _ _ => Except.ok ())
        (fun _ _ => Except.ok ()) (fun p => p))
      (HostingDeps.mk (fun _ => none) (fun _ => Except.ok ())
        (fun _ _ => Except.error UplinkErr.objectNotFound) (fun _ _ => Except.ok ()))
      "b.test".data)
    (Request.mk "POST".data "a.test".data "/x".data false false) rfl

end Linksharing
